import Mathlib

/-!
Verification of the definitions-to-documentation pipeline of the
`secondlife/create` repository: the YAML definitions parser/mapper
(`src/utils/lsl-definitions.ts`), the reference-page generator
(`scripts/generate-docs.js`), and the definitions fetcher
(`scripts/fetch-definitions.js`), shallowly embedded in Lean.

JavaScript plain objects are modelled as association lists
`List (String × α)` with JS assignment semantics (`recInsert`: update in
place when the key exists, append otherwise) and property lookup
(`recLookup`).  File contents are modelled as `List Char`.  Fallible
JavaScript code (thrown exceptions) is modelled with `Except String`.
-/

/-- Characters of a string literal, used to write file contents as `List Char`. -/
def str (s : String) : List Char := s.data

/-- JS property lookup `r[k]` on a plain object modelled as an association list. -/
def recLookup {α : Type} : List (String × α) → String → Option α
  | [], _ => none
  | (k', v) :: rest, k => if k = k' then some v else recLookup rest k

/-- JS property assignment `r[k] = v`: update in place when the key exists,
append otherwise (JS objects keep insertion order for string keys). -/
def recInsert {α : Type} : List (String × α) → String → α → List (String × α)
  | [], k, v => [(k, v)]
  | (k', v') :: rest, k, v =>
    if k = k' then (k', v) :: rest else (k', v') :: recInsert rest k v

/-- JS truthiness of an optional boolean field, as used by `x || false`
and by `if (x)` on a possibly absent flag. -/
def truthyOpt : Option Bool → Bool
  | some b => b
  | none => false

/-- JS truthiness of a possibly absent string (`if (tooltip)`):
`undefined` and the empty string are falsy. -/
def truthyStr : Option (List Char) → Bool
  | some t => !t.isEmpty
  | none => false

/-- Raw argument fragment value as it appears in the YAML source
(`name → \x7btype, tooltip\x7d`); all fields are modelled optional because the
mapper copies whatever is present verbatim.  The TypeScript interface
`Argument` declares `name` and `type` required, but the runtime code never
injects a `name` into these values. -/
structure RawArgument where
  name : Option String
  type : Option String
  tooltip : Option String
deriving DecidableEq

/-- Raw constant entry of the YAML source (fields optional: no schema
validation is performed before mapping; YAML scalars modelled as strings). -/
structure RawConstant where
  value : Option String
  type : Option String
  tooltip : Option String
deriving DecidableEq

/-- Raw function entry of the YAML source.  `ret` models the source key
`return`, `lindenExperience` the key `linden-experience`, `godMode` the key
`god-mode`, and `priv` the key `private` (Lean keywords); `arguments` is a
sequence of single-key fragment records. -/
structure RawFunction where
  tooltip : Option String
  ret : Option String
  energy : Option Rat
  sleep : Option Rat
  deprecated : Option Bool
  experience : Option Bool
  lindenExperience : Option Bool
  godMode : Option Bool
  priv : Option Bool
  arguments : Option (List (List (String × RawArgument)))
deriving DecidableEq

/-- Raw event entry of the YAML source. -/
structure RawEvent where
  tooltip : Option String
  deprecated : Option Bool
  experience : Option Bool
  lindenExperience : Option Bool
  godMode : Option Bool
  arguments : Option (List (List (String × RawArgument)))
deriving DecidableEq

/-- Raw parse result of the whole definitions YAML document. -/
structure RawDefs where
  syntaxVersion : Option Rat
  constants : List (String × RawConstant)
  functions : List (String × RawFunction)
  events : List (String × RawEvent)
deriving DecidableEq

/-- Converted constant entry (`ConstantDefinition` in the source); `value`
and `type` are copied verbatim from the raw entry. -/
structure ConstantDefinition where
  name : String
  tooltip : String
  type : Option String
  value : Option String
deriving DecidableEq

/-- Converted function entry (`FunctionDefinition` in the source).  The
values of `arguments` are the raw fragment values copied verbatim by the
merge. -/
structure FunctionDefinition where
  name : String
  tooltip : String
  returnType : Option String
  energy : Option Rat
  sleep : Option Rat
  deprecated : Bool
  experience : Bool
  lindenExperience : Bool
  godMode : Bool
  arguments : List (String × RawArgument)
deriving DecidableEq

/-- Converted event entry (`EventDefinition` in the source). -/
structure EventDefinition where
  name : String
  tooltip : String
  deprecated : Bool
  experience : Bool
  lindenExperience : Bool
  godMode : Bool
  arguments : List (String × RawArgument)
deriving DecidableEq

/-- Converted definitions document (`LSLDefinitions` in the source). -/
structure LSLDefinitions where
  syntaxVersion : Option Rat
  constants : List (String × ConstantDefinition)
  functions : List (String × FunctionDefinition)
  events : List (String × EventDefinition)
deriving DecidableEq

/-- The global replace of the two-character sequence backslash-n by a
newline character (`tooltip.replace` with the escaped-newline regex, global,
scanning left to right without overlap). -/
def convertNewlinesL : List Char → List Char
  | [] => []
  | '\\' :: 'n' :: rest => '\n' :: convertNewlinesL rest
  | c :: rest => c :: convertNewlinesL rest

/-- String version of `convertNewlinesL`. -/
def convertNewlinesStr (s : String) : String := ⟨convertNewlinesL s.data⟩

/-- `convertTooltip` from the source: calls `replace` on the tooltip
unconditionally, so an absent tooltip (`undefined`) throws a TypeError,
modelled as an `Except` error. -/
def convertTooltip : Option String → Except String String
  | none => .error "TypeError: Cannot read properties of undefined (reading replace)"
  | some t => .ok (convertNewlinesStr t)

/-- `convertArguments` from the source: merge an array of argument records
into a single record by JS assignment, later occurrences of a key
overwriting earlier ones.  The fragment values are copied verbatim. -/
def convertArguments (l : List (List (String × RawArgument))) : List (String × RawArgument) :=
  l.foldl (fun args frag => frag.foldl (fun a p => recInsert a p.1 p.2) args) []

/-- Conversion of one constant entry, as in the `constants` loop of
`convertLSLDefinitions`: the key becomes the `name` field, `value` and
`type` are copied, the tooltip is converted (throwing when absent). -/
def convertConstant (name : String) (c : RawConstant) : Except String ConstantDefinition :=
  match convertTooltip c.tooltip with
  | .error e => .error e
  | .ok tt => .ok { name := name, tooltip := tt, type := c.type, value := c.value }

/-- Conversion of one function entry, as in the `functions` loop of
`convertLSLDefinitions`: `energy` and `sleep` copied verbatim (absent stays
absent), the four flags defaulted to `false` via `|| false`, and the
argument sequence merged (empty record when absent). -/
def convertFunction (name : String) (fn : RawFunction) : Except String FunctionDefinition :=
  match convertTooltip fn.tooltip with
  | .error e => .error e
  | .ok tt =>
    .ok { name := name, tooltip := tt, returnType := fn.ret,
          energy := fn.energy, sleep := fn.sleep,
          deprecated := truthyOpt fn.deprecated,
          experience := truthyOpt fn.experience,
          lindenExperience := truthyOpt fn.lindenExperience,
          godMode := truthyOpt fn.godMode,
          arguments := match fn.arguments with
            | some a => convertArguments a
            | none => [] }

/-- Conversion of one event entry, as in the `events` loop of
`convertLSLDefinitions`. -/
def convertEvent (name : String) (ev : RawEvent) : Except String EventDefinition :=
  match convertTooltip ev.tooltip with
  | .error e => .error e
  | .ok tt =>
    .ok { name := name, tooltip := tt,
          deprecated := truthyOpt ev.deprecated,
          experience := truthyOpt ev.experience,
          lindenExperience := truthyOpt ev.lindenExperience,
          godMode := truthyOpt ev.godMode,
          arguments := match ev.arguments with
            | some a => convertArguments a
            | none => [] }

/-- One `for (const name in raw.xs)` conversion loop: converts every entry,
keyed as in the source, propagating the first thrown error. -/
def convertEntries {α β : Type} (f : String → α → Except String β) :
    List (String × α) → Except String (List (String × β))
  | [] => .ok []
  | (k, v) :: rest =>
    match f k v with
    | .error e => .error e
    | .ok b =>
      match convertEntries f rest with
      | .error e => .error e
      | .ok tail => .ok ((k, b) :: tail)

/-- `convertLSLDefinitions` from the source: the three conversion loops run
in order (constants, functions, events), an exception in any loop aborting
the whole conversion. -/
def convertLSLDefinitions (raw : RawDefs) : Except String LSLDefinitions :=
  match convertEntries convertConstant raw.constants with
  | .error e => .error e
  | .ok cs =>
    match convertEntries convertFunction raw.functions with
    | .error e => .error e
    | .ok fs =>
      match convertEntries convertEvent raw.events with
      | .error e => .error e
      | .ok es =>
        .ok { syntaxVersion := raw.syntaxVersion,
              constants := cs, functions := fs, events := es }

/-- `getConstant` from the source (the cached document made explicit):
property lookup in the `constants` mapping, `undefined` when absent. -/
def getConstant (d : LSLDefinitions) (name : String) : Option ConstantDefinition :=
  recLookup d.constants name

/-- `getFunction` from the source. -/
def getFunction (d : LSLDefinitions) (name : String) : Option FunctionDefinition :=
  recLookup d.functions name

/-- `getEvent` from the source. -/
def getEvent (d : LSLDefinitions) (name : String) : Option EventDefinition :=
  recLookup d.events name

/-- The marker comment line of `generate-docs.js` that separates the
machine-owned header from the preserved user body. -/
def MARKER : List Char := str "\x7b/* DO NOT EDIT ABOVE THIS LINE */\x7d"

/-- The default placeholder body (`EXAMPLE_TEXT` in the source), used when
the output file cannot be read. -/
def EXAMPLE_TEXT : List Char :=
  str "## Examples\n\nAdd example usage here.\n\n## Notes\n\nAdd additional notes, caveats, or tips here.\n\n## See Also\n\n- Related pages can be linked here\n"

/-- The trimmed front-matter YAML of `generateFor`: `title` is the entry
name; `description` is added only when the tooltip is truthy (present and
non-empty), with escaped newlines normalized.  This models the js-yaml
`dump(...).trim()` call in plain-scalar style, which is faithful for names
and tooltips free of YAML-special characters. -/
def frontmatterYaml (name : List Char) (tooltip : Option (List Char)) : List Char :=
  if truthyStr tooltip then
    str "title: " ++ name ++ str "\ndescription: " ++ convertNewlinesL (tooltip.getD [])
  else
    str "title: " ++ name

/-- The machine-owned header composed by `generateFor`: front-matter block,
component import, component invocation, blank line, marker line. -/
def headerFor (name : List Char) (tooltip : Option (List Char)) (component : List Char) : List Char :=
  str "---\n" ++ frontmatterYaml name tooltip ++ str "\n---\n\nimport " ++ component
    ++ str " from \x27@components/" ++ component ++ str ".astro\x27;\n\n<" ++ component
    ++ str " name=\"" ++ name ++ str "\" />\n\n" ++ MARKER

/-- `dropPre? p s` returns `some r` when `s = p ++ r`, i.e. when `p` is a
prefix of `s`, and `none` otherwise. -/
def dropPre? : List Char → List Char → Option (List Char)
  | [], s => some s
  | _ :: _, [] => none
  | a :: m, b :: s => if a = b then dropPre? m s else none

/-- `afterFirst? m s` is the suffix of `s` after the first occurrence of
`m`, or `none` when `m` does not occur: the model of
`s.indexOf(m)` followed by `s.substring(index + m.length)`. -/
def afterFirst? (m : List Char) : List Char → Option (List Char)
  | [] => dropPre? m []
  | c :: rest =>
    match dropPre? m (c :: rest) with
    | some tail => some tail
    | none => afterFirst? m rest

/-- The file content written by one `generateFor` call, as a function of
the entry name, its tooltip, the component name, and the previous content
of the output file (`none` when the file does not exist or cannot be
read).  Mirrors the source: the preserved region is the text after the
first marker occurrence; a readable file without the marker contributes an
empty region; an unreadable file contributes the default placeholder. -/
def generateContent (name : List Char) (tooltip : Option (List Char))
    (component : List Char) (old : Option (List Char)) : List Char :=
  headerFor name tooltip component ++
    match old with
    | none => str "\n\n" ++ EXAMPLE_TEXT
    | some fc =>
      match afterFirst? MARKER fc with
      | some tail => tail
      | none => []

/-- The output filename derived by `generateFor`:
lower-cased entry name plus the `.mdx` extension. -/
def filenameFor (name : List Char) : List Char :=
  name.map Char.toLower ++ str ".mdx"

/-- The output filepath of `generateFor` (the `__dirname` prefix of the
source `join` is a fixed constant and is omitted). -/
def pathFor (outputDir : List Char) (name : List Char) : List Char :=
  outputDir ++ str "/" ++ filenameFor name

/-- One `generateFor` call acting on a filesystem modelled as a map from
paths to file contents: read the previous content at the derived path,
compose the new content, and write it there unconditionally. -/
def genWrite (store : List Char → Option (List Char)) (outputDir name : List Char)
    (tooltip : Option (List Char)) (component : List Char) :
    List Char → Option (List Char) :=
  fun p =>
    if p = pathFor outputDir name then
      some (generateContent name tooltip component (store (pathFor outputDir name)))
    else store p

/-- Output directory of LSL function pages in `generateDocs`. -/
def lslFunctionsDir : String := "../src/content/docs/script/lsl-reference/functions"

/-- Output directory of SLua function pages in `generateDocs`. -/
def sluaFunctionsDir : String := "../src/content/docs/script/slua-reference/functions"

/-- The (entry name, output directory) pairs generated by the functions
loop of `generateDocs`: every function not flagged `private` in the raw
definitions gets one LSL page and one SLua page; private functions are
skipped entirely via `continue`. -/
def functionGenTargets : List (String × RawFunction) → List (String × String)
  | [] => []
  | (n, f) :: rest =>
    if truthyOpt f.priv then functionGenTargets rest
    else (n, lslFunctionsDir) :: (n, sluaFunctionsDir) :: functionGenTargets rest

/-- `response.ok` of the Fetch API: status in the inclusive range 200-299. -/
def responseOk (status : Nat) : Bool :=
  decide (200 ≤ status) && decide (status < 300)

/-- `fetchDefinitions` from `scripts/fetch-definitions.js`, as a function of
the HTTP response status, the response body, and the previous filesystem
state at the output path: on a non-ok status it throws before any write,
leaving the output path unchanged; on success it writes the body. -/
def fetchDefinitions (status : Nat) (body : String) (fs : Option String) :
    Except String Unit × Option String :=
  if responseOk status then (.ok (), some body)
  else (.error ("HTTP error! status: " ++ toString status), fs)

/-- The value of the last pair with key `k` in a flat pair list, the
specification of last-write-wins merging. -/
def lastVal? {α : Type} (k : String) (ps : List (String × α)) : Option α :=
  ps.foldl (fun acc p => if p.1 = k then some p.2 else acc) none

/-- Concatenation of the fragment records of an argument sequence. -/
def flat {α : Type} (l : List (List α)) : List α :=
  l.foldr (· ++ ·) []

/-- Concrete fragment sequence of the spec example, in source order: the
fragment values carry no `name` field, as in the definitions YAML. -/
def exFragsAB : List (List (String × RawArgument)) :=
  [[("a", { name := none, type := some "integer", tooltip := none })],
   [("b", { name := none, type := some "string", tooltip := none })]]

/-- The fragments of `exFragsAB` in the opposite order. -/
def exFragsBA : List (List (String × RawArgument)) :=
  [[("b", { name := none, type := some "string", tooltip := none })],
   [("a", { name := none, type := some "integer", tooltip := none })]]

/-- A raw document whose single function entry omits every optional field,
including the tooltip. -/
def exRawNoTooltip : RawDefs :=
  { syntaxVersion := none, constants := [],
    functions := [("sayHello",
      { tooltip := none, ret := none, energy := none, sleep := none,
        deprecated := none, experience := none, lindenExperience := none,
        godMode := none, priv := none, arguments := none })],
    events := [] }

/-- Raw function entry with explicit `energy: 10`, `sleep: 0` and no
`deprecated` flag (end-to-end scenario 2 of the spec). -/
def exSayHello : RawFunction :=
  { tooltip := some "Say hello.", ret := some "void", energy := some 10,
    sleep := some 0, deprecated := none, experience := none,
    lindenExperience := none, godMode := none, priv := none, arguments := none }

/-- The converted form of `exSayHello`. -/
def exSayHelloFd : FunctionDefinition :=
  { name := "sayHello", tooltip := "Say hello.", returnType := some "void",
    energy := some 10, sleep := some 0, deprecated := false, experience := false,
    lindenExperience := false, godMode := false, arguments := [] }

/-- A raw function entry flagged `private: true`. -/
def exPrivFn : RawFunction :=
  { tooltip := some "internal", ret := none, energy := none, sleep := none,
    deprecated := none, experience := none, lindenExperience := none,
    godMode := none, priv := some true, arguments := none }

/-- A raw function entry with no `private` flag. -/
def exPubFn : RawFunction :=
  { tooltip := some "public", ret := none, energy := none, sleep := none,
    deprecated := none, experience := none, lindenExperience := none,
    godMode := none, priv := none, arguments := none }

/-- A raw functions collection with one private and one public entry. -/
def exFns6 : List (String × RawFunction) := [("secret", exPrivFn), ("llSay", exPubFn)]

/-- A raw document with a single constant entry. -/
def exRaw9 : RawDefs :=
  { syntaxVersion := some 2,
    constants := [("AGENT",
      { value := some "1", type := some "integer", tooltip := some "Agent flag" })],
    functions := [], events := [] }

/-- The converted form of `exRaw9`. -/
def exDefs9 : LSLDefinitions :=
  { syntaxVersion := some 2,
    constants := [("AGENT",
      { name := "AGENT", tooltip := "Agent flag", type := some "integer", value := some "1" })],
    functions := [], events := [] }

theorem recLookup_recInsert {α : Type} (a : List (String × α)) (k k' : String) (v : α) :
    recLookup (recInsert a k v) k' = if k' = k then some v else recLookup a k' := by
  induction a with
  | nil =>
    simp only [recInsert, recLookup]
  | cons p rest ih =>
    obtain ⟨k₀, v₀⟩ := p
    simp only [recInsert]
    by_cases h : k = k₀
    · subst h
      simp only [if_pos rfl, recLookup]
      by_cases h' : k' = k <;> simp [h']
    · rw [if_neg h]
      simp only [recLookup]
      by_cases h' : k' = k₀
      · subst h'
        rw [if_pos rfl, if_pos rfl, if_neg (fun hh => h hh.symm)]
      · rw [if_neg h', if_neg h', ih]

theorem foldl_lastStep_or {α : Type} (k : String) (ps : List (String × α)) :
    ∀ init : Option α,
      ps.foldl (fun acc p => if p.1 = k then some p.2 else acc) init
        = Option.or (ps.foldl (fun acc p => if p.1 = k then some p.2 else acc) none) init := by
  induction ps with
  | nil => intro init; simp
  | cons p rest ih =>
    intro init
    rw [List.foldl_cons, List.foldl_cons, ih, ih (if p.1 = k then some p.2 else none),
      Option.or_assoc]
    congr 1
    by_cases h : p.1 = k
    · simp [h]
    · simp [h]

theorem lastVal?_cons {α : Type} (k : String) (p : String × α) (ps : List (String × α)) :
    lastVal? k (p :: ps)
      = Option.or (lastVal? k ps) (if p.1 = k then some p.2 else none) := by
  simp only [lastVal?, List.foldl_cons]
  exact foldl_lastStep_or k ps _

theorem recLookup_foldl_recInsert {α : Type} (ps : List (String × α))
    (a : List (String × α)) (k : String) :
    recLookup (ps.foldl (fun a p => recInsert a p.1 p.2) a) k
      = Option.or (lastVal? k ps) (recLookup a k) := by
  induction ps generalizing a with
  | nil => simp [lastVal?]
  | cons p rest ih =>
    rw [List.foldl_cons, ih, lastVal?_cons, Option.or_assoc]
    congr 1
    rw [recLookup_recInsert]
    by_cases h : p.1 = k
    · subst h
      simp
    · rw [if_neg h, if_neg (fun hh => h hh.symm), Option.none_or]

theorem flat_cons {α : Type} (x : List α) (l : List (List α)) :
    flat (x :: l) = x ++ flat l := rfl

theorem foldl_flat {α β : Type} (f : β → α → β) (l : List (List α)) (a : β) :
    (flat l).foldl f a = l.foldl (fun a frag => frag.foldl f a) a := by
  induction l generalizing a with
  | nil => rfl
  | cons x l ih =>
    rw [flat_cons, List.foldl_append, List.foldl_cons, ih]

theorem convertArguments_eq_foldl_flat (l : List (List (String × RawArgument))) :
    convertArguments l = (flat l).foldl (fun a p => recInsert a p.1 p.2) [] := by
  rw [convertArguments, foldl_flat]

/-- Lookup in the merged argument record is the value of the last fragment
pair carrying that key. -/
theorem recLookup_convertArguments (l : List (List (String × RawArgument))) (k : String) :
    recLookup (convertArguments l) k = lastVal? k (flat l) := by
  rw [convertArguments_eq_foldl_flat, recLookup_foldl_recInsert]
  cases lastVal? k (flat l) <;> rfl

theorem flat_perm {α : Type} {l₁ l₂ : List (List α)} (h : l₁.Perm l₂) :
    (flat l₁).Perm (flat l₂) := by
  induction h with
  | nil => exact List.Perm.refl _
  | cons x _ ih =>
    rw [flat_cons, flat_cons]
    exact ih.append_left x
  | swap x y l =>
    rw [flat_cons, flat_cons, flat_cons, flat_cons, ← List.append_assoc, ← List.append_assoc]
    exact (List.perm_append_comm.append_right (flat l))
  | trans _ _ ih₁ ih₂ => exact ih₁.trans ih₂

theorem lastVal?_eq_none_iff {α : Type} (k : String) (ps : List (String × α)) :
    lastVal? k ps = none ↔ k ∉ ps.map Prod.fst := by
  induction ps with
  | nil => simp [lastVal?]
  | cons p rest ih =>
    rw [lastVal?_cons]
    constructor
    · intro h
      rw [Option.or_eq_none] at h
      obtain ⟨h₁, h₂⟩ := h
      simp only [List.map_cons, List.mem_cons]
      rintro (rfl | hmem)
      · simp at h₂
      · exact (ih.mp h₁) hmem
    · intro h
      simp only [List.map_cons, List.mem_cons] at h
      push_neg at h
      obtain ⟨h₁, h₂⟩ := h
      rw [ih.mpr h₂, if_neg (fun hh => h₁ hh.symm)]
      rfl

theorem lastVal?_eq_some_iff {α : Type} (k : String) (v : α) (ps : List (String × α))
    (nd : (ps.map Prod.fst).Nodup) :
    lastVal? k ps = some v ↔ (k, v) ∈ ps := by
  induction ps with
  | nil => simp [lastVal?]
  | cons p rest ih =>
    rw [List.map_cons, List.nodup_cons] at nd
    obtain ⟨hp, nd'⟩ := nd
    rw [lastVal?_cons]
    constructor
    · intro h
      cases hrest : lastVal? k rest with
      | some w =>
        rw [hrest] at h
        simp only [Option.or] at h
        injection h with h
        subst h
        exact List.mem_cons_of_mem _ ((ih nd').mp hrest)
      | none =>
        rw [hrest, Option.none_or] at h
        by_cases hk : p.1 = k
        · rw [if_pos hk] at h
          injection h with h
          subst hk
          subst h
          simp
        · rw [if_neg hk] at h
          exact absurd h (by simp)
    · intro h
      rcases List.mem_cons.mp h with rfl | hmem
      · have hrest : lastVal? k rest = none := by
          rw [lastVal?_eq_none_iff]
          simpa using hp
        rw [hrest, Option.none_or, if_pos rfl]
      · rw [(ih nd').mpr hmem]
        rfl

theorem lastVal?_perm {α : Type} {ps₁ ps₂ : List (String × α)} (h : ps₁.Perm ps₂)
    (nd : (ps₁.map Prod.fst).Nodup) (k : String) :
    lastVal? k ps₁ = lastVal? k ps₂ := by
  have nd₂ : (ps₂.map Prod.fst).Nodup := ((h.map Prod.fst).nodup_iff).mp nd
  cases h₁ : lastVal? k ps₁ with
  | some v =>
    have : (k, v) ∈ ps₂ := h.mem_iff.mp ((lastVal?_eq_some_iff k v ps₁ nd).mp h₁)
    exact ((lastVal?_eq_some_iff k v ps₂ nd₂).mpr this).symm
  | none =>
    have : k ∉ ps₂.map Prod.fst := by
      intro hk
      exact (lastVal?_eq_none_iff k ps₁).mp h₁ (((h.map Prod.fst).mem_iff).mpr hk)
    exact ((lastVal?_eq_none_iff k ps₂).mpr this).symm

theorem dropPre?_eq_some_iff (m s r : List Char) :
    dropPre? m s = some r ↔ s = m ++ r := by
  induction m generalizing s with
  | nil => simp [dropPre?]
  | cons a m ih =>
    cases s with
    | nil => simp [dropPre?]
    | cons b s =>
      simp only [dropPre?, List.cons_append, List.cons.injEq]
      by_cases h : a = b
      · subst h
        rw [if_pos rfl, ih]
        simp
      · rw [if_neg h]
        constructor
        · intro hc
          cases hc
        · rintro ⟨hba, -⟩
          exact (h hba.symm).elim

theorem dropPre?_append_self (m t : List Char) :
    dropPre? m (m ++ t) = some t := by
  rw [dropPre?_eq_some_iff]

theorem dropPre?_eq_none_append (m s t : List Char) (h : dropPre? m s = none)
    (hlen : m.length ≤ s.length) : dropPre? m (s ++ t) = none := by
  induction m generalizing s with
  | nil => simp [dropPre?] at h
  | cons a m ih =>
    cases s with
    | nil => simp at hlen
    | cons b s =>
      simp only [dropPre?, List.cons_append] at *
      by_cases hab : a = b
      · rw [if_pos hab] at h ⊢
        exact ih s h (Nat.succ_le_succ_iff.mp hlen)
      · rw [if_neg hab]

theorem afterFirst?_eq_some (m s u : List Char) (h : afterFirst? m s = some u) :
    ∃ p, s = p ++ m ++ u := by
  induction s with
  | nil =>
    simp only [afterFirst?] at h
    rw [dropPre?_eq_some_iff] at h
    exact ⟨[], by simp [← h]⟩
  | cons c rest ih =>
    simp only [afterFirst?] at h
    cases hd : dropPre? m (c :: rest) with
    | some tail =>
      rw [hd] at h
      injection h with h
      subst h
      rw [dropPre?_eq_some_iff] at hd
      exact ⟨[], by simp [hd]⟩
    | none =>
      rw [hd] at h
      obtain ⟨p, hp⟩ := ih h
      exact ⟨c :: p, by simp [hp]⟩

theorem afterFirst?_nil_left (s : List Char) : afterFirst? [] s = some s := by
  cases s <;> rfl

/-- When the first occurrence of `m` in `h` is terminal (nothing follows
it), appending any `t` leaves the first occurrence in place, so the suffix
after it is exactly `t`.  This is the key fact behind regeneration
idempotence and content preservation. -/
theorem afterFirst?_append_of_terminal (m h t : List Char)
    (hh : afterFirst? m h = some []) : afterFirst? m (h ++ t) = some t := by
  induction h with
  | nil =>
    simp only [afterFirst?] at hh
    rw [dropPre?_eq_some_iff] at hh
    have hm : m = [] := by simpa using hh.symm
    subst hm
    simpa using afterFirst?_nil_left t
  | cons c rest ih =>
    simp only [afterFirst?] at hh
    cases hd : dropPre? m (c :: rest) with
    | some tail =>
      rw [hd] at hh
      injection hh with hh
      subst hh
      rw [dropPre?_eq_some_iff, List.append_nil] at hd
      subst hd
      show afterFirst? (c :: rest) ((c :: rest) ++ t) = some t
      rw [List.cons_append]
      simp only [afterFirst?]
      rw [← List.cons_append, dropPre?_append_self]
    | none =>
      rw [hd] at hh
      obtain ⟨p, hp⟩ := afterFirst?_eq_some m rest [] hh
      have hlen : m.length ≤ (c :: rest).length := by
        rw [hp]
        simp
        omega
      have hdn : dropPre? m ((c :: rest) ++ t) = none :=
        dropPre?_eq_none_append m (c :: rest) t hd hlen
      rw [List.cons_append]
      simp only [afterFirst?]
      rw [List.cons_append] at hdn
      rw [hdn]
      exact ih hh

theorem recLookup_mem {α : Type} (r : List (String × α)) (k : String) (v : α)
    (h : recLookup r k = some v) : (k, v) ∈ r := by
  induction r with
  | nil => cases h
  | cons p rest ih =>
    obtain ⟨k', v'⟩ := p
    simp only [recLookup] at h
    by_cases hk : k = k'
    · rw [if_pos hk] at h
      injection h with h
      subst hk
      subst h
      simp
    · rw [if_neg hk] at h
      exact List.mem_cons_of_mem _ (ih h)

theorem recLookup_eq_none_iff {α : Type} (r : List (String × α)) (k : String) :
    recLookup r k = none ↔ k ∉ r.map Prod.fst := by
  induction r with
  | nil => simp [recLookup]
  | cons p rest ih =>
    obtain ⟨k', v'⟩ := p
    simp only [recLookup, List.map_cons, List.mem_cons]
    by_cases hk : k = k'
    · rw [if_pos hk]
      simp [hk]
    · rw [if_neg hk, ih]
      simp [hk]

theorem convertEntries_keys {α β : Type} (f : String → α → Except String β)
    (l : List (String × α)) (cl : List (String × β))
    (h : convertEntries f l = .ok cl) : cl.map Prod.fst = l.map Prod.fst := by
  induction l generalizing cl with
  | nil =>
    simp only [convertEntries] at h
    injection h with h
    subst h
    rfl
  | cons p rest ih =>
    obtain ⟨k, v⟩ := p
    simp only [convertEntries] at h
    cases hf : f k v with
    | error e => rw [hf] at h; cases h
    | ok b =>
      rw [hf] at h
      cases hr : convertEntries f rest with
      | error e => rw [hr] at h; cases h
      | ok tail =>
        rw [hr] at h
        injection h with h
        subst h
        simp [ih tail hr]

theorem convertEntries_value_key {α β : Type} (f : String → α → Except String β)
    (g : β → String) (hf : ∀ k v b, f k v = .ok b → g b = k)
    (l : List (String × α)) (cl : List (String × β))
    (h : convertEntries f l = .ok cl) : ∀ p ∈ cl, g p.2 = p.1 := by
  induction l generalizing cl with
  | nil =>
    simp only [convertEntries] at h
    injection h with h
    subst h
    intro p hp
    cases hp
  | cons p rest ih =>
    obtain ⟨k, v⟩ := p
    simp only [convertEntries] at h
    cases hfv : f k v with
    | error e => rw [hfv] at h; cases h
    | ok b =>
      rw [hfv] at h
      cases hr : convertEntries f rest with
      | error e => rw [hr] at h; cases h
      | ok tail =>
        rw [hr] at h
        injection h with h
        subst h
        intro q hq
        rcases List.mem_cons.mp hq with rfl | hmem
        · exact hf k v b hfv
        · exact ih tail hr q hmem

theorem convertConstant_name (k : String) (v : RawConstant) (b : ConstantDefinition)
    (h : convertConstant k v = .ok b) : b.name = k := by
  unfold convertConstant at h
  cases ht : convertTooltip v.tooltip with
  | error e => rw [ht] at h; cases h
  | ok tt =>
    rw [ht] at h
    injection h with h
    subst h
    rfl

theorem convertFunction_name (k : String) (v : RawFunction) (b : FunctionDefinition)
    (h : convertFunction k v = .ok b) : b.name = k := by
  unfold convertFunction at h
  cases ht : convertTooltip v.tooltip with
  | error e => rw [ht] at h; cases h
  | ok tt =>
    rw [ht] at h
    injection h with h
    subst h
    rfl

theorem convertEvent_name (k : String) (v : RawEvent) (b : EventDefinition)
    (h : convertEvent k v = .ok b) : b.name = k := by
  unfold convertEvent at h
  cases ht : convertTooltip v.tooltip with
  | error e => rw [ht] at h; cases h
  | ok tt =>
    rw [ht] at h
    injection h with h
    subst h
    rfl

theorem convertLSLDefinitions_ok (raw : RawDefs) (d : LSLDefinitions)
    (h : convertLSLDefinitions raw = .ok d) :
    convertEntries convertConstant raw.constants = .ok d.constants ∧
    convertEntries convertFunction raw.functions = .ok d.functions ∧
    convertEntries convertEvent raw.events = .ok d.events := by
  unfold convertLSLDefinitions at h
  cases hc : convertEntries convertConstant raw.constants with
  | error e => rw [hc] at h; cases h
  | ok cs =>
    rw [hc] at h
    cases hfn : convertEntries convertFunction raw.functions with
    | error e => rw [hfn] at h; cases h
    | ok fs =>
      rw [hfn] at h
      cases he : convertEntries convertEvent raw.events with
      | error e => rw [he] at h; cases h
      | ok es =>
        rw [he] at h
        injection h with h
        subst h
        exact ⟨rfl, rfl, rfl⟩

theorem recLookup_name_spec {β : Type} (g : β → String) (cl : List (String × β))
    (hvk : ∀ p ∈ cl, g p.2 = p.1) (name : String) :
    (name ∈ cl.map Prod.fst → ∃ b, recLookup cl name = some b ∧ g b = name) ∧
    (name ∉ cl.map Prod.fst → recLookup cl name = none) := by
  constructor
  · intro hmem
    cases hl : recLookup cl name with
    | none => exact absurd hmem ((recLookup_eq_none_iff cl name).mp hl)
    | some b => exact ⟨b, rfl, hvk (name, b) (recLookup_mem cl name b hl)⟩
  · exact fun hmem => (recLookup_eq_none_iff cl name).mpr hmem

theorem not_mem_functionGenTargets (fns : List (String × RawFunction)) (name : String)
    (h : name ∉ fns.map Prod.fst) (dir : String) : (name, dir) ∉ functionGenTargets fns := by
  induction fns with
  | nil => intro hin; cases hin
  | cons p rest ih =>
    obtain ⟨n₀, f₀⟩ := p
    simp only [List.map_cons, List.mem_cons] at h
    push_neg at h
    obtain ⟨h₁, h₂⟩ := h
    simp only [functionGenTargets]
    by_cases hp : truthyOpt f₀.priv
    · rw [if_pos hp]
      exact ih h₂
    · rw [if_neg hp]
      intro hin
      rcases List.mem_cons.mp hin with heq | hin'
      · injection heq with e₁ e₂
        exact h₁ e₁
      · rcases List.mem_cons.mp hin' with heq | hin''
        · injection heq with e₁ e₂
          exact h₁ e₁
        · exact ih h₂ hin''

/-- Claim C1 (counterexample): merging the spec's example fragments
`[(a ↦ type integer)], [(b ↦ type string)]` does not produce a value
carrying the argument's own name at key `a`: the fragment value is copied
verbatim, with no `name` field injected. -/
theorem C1_counterexample :
    recLookup (convertArguments exFragsAB) "a"
        = some { name := none, type := some "integer", tooltip := none } ∧
    recLookup (convertArguments exFragsAB) "a"
        ≠ some { name := some "a", type := some "integer", tooltip := none } := by
  constructor
  · decide
  · decide

/-- Claim C1 (amended): the argument merge produces a mapping keyed by
argument name whose values are the fragments' values verbatim (the name is
carried by the key, not injected into the value).  Lookup in the merged
record is the value of the last fragment pair carrying the key
(last-write-wins), and the merge is order-independent for distinct names:
permuting the fragments of a sequence with pairwise-distinct argument
names leaves every lookup unchanged. -/
theorem C1_argument_merge :
    (∀ (l : List (List (String × RawArgument))) (k : String),
        recLookup (convertArguments l) k = lastVal? k (flat l)) ∧
    (∀ l₁ l₂ : List (List (String × RawArgument)),
        l₁.Perm l₂ → ((flat l₁).map Prod.fst).Nodup →
        ∀ k, recLookup (convertArguments l₁) k = recLookup (convertArguments l₂) k) := by
  constructor
  · exact recLookup_convertArguments
  · intro l₁ l₂ hperm hnd k
    rw [recLookup_convertArguments, recLookup_convertArguments]
    exact lastVal?_perm (flat_perm hperm) hnd k

/-- Claim C1 (witness): the order-independence part of `C1_argument_merge`
applied to the spec's two-fragment example and its reversal. -/
theorem C1_witness :
    recLookup (convertArguments exFragsAB) "b" = recLookup (convertArguments exFragsBA) "b" :=
  C1_argument_merge.2 exFragsAB exFragsBA (by decide) (by decide) "b"

/-- Claim C2 (counterexample): regenerating over an existing file that
lacks the marker line does not append the default placeholder body; the
composed header is followed by nothing at all. -/
theorem C2_counterexample :
    generateContent (str "llSay") none (str "LSLFunction") (some (str "hello world"))
        ≠ headerFor (str "llSay") none (str "LSLFunction") ++ (str "\n\n" ++ EXAMPLE_TEXT) := by
  decide

/-- Claim C2 (amended): when the existing output file is readable but the
marker line does not occur in it, the generator writes exactly the freshly
composed header with an empty preserved region (the default placeholder
body is used only when the file cannot be read), and no error is raised
(the generation is a total function of the inputs). -/
theorem C2_missing_marker (name component old : List Char) (tooltip : Option (List Char))
    (h : afterFirst? MARKER old = none) :
    generateContent name tooltip component (some old) = headerFor name tooltip component := by
  simp only [generateContent]
  rw [h]
  simp

/-- Claim C2 (witness): `C2_missing_marker` at a concrete marker-free file. -/
theorem C2_witness :
    generateContent (str "llSay") none (str "LSLFunction") (some (str "hello world"))
      = headerFor (str "llSay") none (str "LSLFunction") :=
  C2_missing_marker (str "llSay") (str "LSLFunction") (str "hello world") none (by decide)

/-- Claim C3 (counterexample): a function entry that omits the optional
`tooltip` field makes the mapper fail: `convertTooltip` calls `replace` on
the absent value, raising a TypeError instead of defaulting. -/
theorem C3_counterexample :
    convertLSLDefinitions exRawNoTooltip
      = .error "TypeError: Cannot read properties of undefined (reading replace)" := by
  rfl

/-- Claim C3 (amended): for entries whose optional fields other than
`tooltip` are absent (returnType, energy, sleep, the four boolean flags,
arguments — and value/type for constants), the mapper defaults them without
failing: flags become `false`, the argument record becomes empty, and the
verbatim-copied fields stay absent; an absent `tooltip`, by contrast, is
the one optional field whose absence makes the mapper throw. -/
theorem C3_optional_defaults :
    ∀ name t : String,
      convertFunction name
          { tooltip := some t, ret := none, energy := none, sleep := none,
            deprecated := none, experience := none, lindenExperience := none,
            godMode := none, priv := none, arguments := none }
        = .ok { name := name, tooltip := convertNewlinesStr t, returnType := none,
                energy := none, sleep := none, deprecated := false, experience := false,
                lindenExperience := false, godMode := false, arguments := [] } ∧
      convertEvent name
          { tooltip := some t, deprecated := none, experience := none,
            lindenExperience := none, godMode := none, arguments := none }
        = .ok { name := name, tooltip := convertNewlinesStr t, deprecated := false,
                experience := false, lindenExperience := false, godMode := false,
                arguments := [] } ∧
      convertConstant name { value := none, type := none, tooltip := some t }
        = .ok { name := name, tooltip := convertNewlinesStr t, type := none, value := none } :=
  fun _ _ => ⟨rfl, rfl, rfl⟩

set_option maxRecDepth 100000 in
/-- Claim C4 (counterexample): regeneration is not a fixed point for every
entry: when the entry name itself contains the marker text, the composed
header contains a marker occurrence before its terminal one, so the second
run extracts a different preserved region and writes different bytes. -/
theorem C4_counterexample :
    generateContent MARKER none (str "LSLFunction")
        (some (generateContent MARKER none (str "LSLFunction") none))
      ≠ generateContent MARKER none (str "LSLFunction") none := by
  decide

/-- Claim C4 (amended): for every entry and any initial state of the output
file, provided the first marker occurrence in the composed header is its
terminal one (as holds whenever the entry name and tooltip do not contain
the marker text), running the generator a second time with identical
inputs and no intervening change reproduces the first run's bytes
exactly. -/
theorem C4_idempotent (name component : List Char) (tooltip : Option (List Char))
    (old : Option (List Char))
    (h : afterFirst? MARKER (headerFor name tooltip component) = some []) :
    generateContent name tooltip component (some (generateContent name tooltip component old))
      = generateContent name tooltip component old := by
  have hbody : ∀ body : List Char,
      generateContent name tooltip component (some (headerFor name tooltip component ++ body))
        = headerFor name tooltip component ++ body := by
    intro body
    simp only [generateContent]
    rw [afterFirst?_append_of_terminal _ _ _ h]
  have hsplit : ∃ body : List Char,
      generateContent name tooltip component old = headerFor name tooltip component ++ body := by
    cases old with
    | none => exact ⟨_, rfl⟩
    | some fc =>
      simp only [generateContent]
      cases afterFirst? MARKER fc with
      | some tail => exact ⟨tail, rfl⟩
      | none => exact ⟨[], rfl⟩
  obtain ⟨body, hb⟩ := hsplit
  rw [hb, hbody]

/-- Claim C4 (witness): `C4_idempotent` at a concrete entry and initial
file, the side condition checked by evaluation. -/
theorem C4_witness :
    generateContent (str "llSay") (some (str "Says something.")) (str "LSLFunction")
        (some (generateContent (str "llSay") (some (str "Says something.")) (str "LSLFunction")
          (some (str "junk"))))
      = generateContent (str "llSay") (some (str "Says something.")) (str "LSLFunction")
          (some (str "junk")) :=
  C4_idempotent (str "llSay") (str "LSLFunction") (some (str "Says something."))
    (some (str "junk")) (by decide)

/-- Claim C5 (confirmed): regenerating over an existing file whose content
is some prefix, the marker (first occurrence), and then arbitrary text `t`,
with any header inputs (for example a changed tooltip), writes exactly the
freshly composed header followed by `t` unchanged, byte for byte. -/
theorem C5_preservation (name component p t : List Char) (tooltip : Option (List Char))
    (h : afterFirst? MARKER (p ++ MARKER) = some []) :
    generateContent name tooltip component (some ((p ++ MARKER) ++ t))
      = headerFor name tooltip component ++ t := by
  simp only [generateContent]
  rw [afterFirst?_append_of_terminal _ _ _ h]

/-- Claim C5 (witness): `C5_preservation` at a concrete file and new
tooltip. -/
theorem C5_witness :
    generateContent (str "llSay") (some (str "New tooltip.")) (str "LSLFunction")
        (some ((str "some prose " ++ MARKER) ++ str "## my notes\n"))
      = headerFor (str "llSay") (some (str "New tooltip.")) (str "LSLFunction")
          ++ str "## my notes\n" :=
  C5_preservation (str "llSay") (str "LSLFunction") (str "some prose ")
    (str "## my notes\n") (some (str "New tooltip.")) (by decide)

/-- Claim C6 (confirmed): a function entry flagged `private` in the raw
definitions produces no generation target in either language variant: in a
functions collection with unique names, no (name, directory) pair for the
private entry appears in the batch generation list. -/
theorem C6_private_skipped (fns : List (String × RawFunction)) (name : String)
    (f : RawFunction) (hnd : (fns.map Prod.fst).Nodup) (hmem : (name, f) ∈ fns)
    (hpriv : truthyOpt f.priv = true) :
    ∀ dir, (name, dir) ∉ functionGenTargets fns := by
  induction fns with
  | nil => cases hmem
  | cons p rest ih =>
    obtain ⟨n₀, f₀⟩ := p
    rw [List.map_cons, List.nodup_cons] at hnd
    obtain ⟨hn₀, hnd'⟩ := hnd
    intro dir
    rcases List.mem_cons.mp hmem with heq | hmem'
    · injection heq with e₁ e₂
      subst e₁
      subst e₂
      simp only [functionGenTargets, hpriv, if_pos]
      exact not_mem_functionGenTargets rest name hn₀ dir
    · have hname : name ∈ rest.map Prod.fst :=
        List.mem_map_of_mem Prod.fst hmem'
      simp only [functionGenTargets]
      by_cases hp : truthyOpt f₀.priv
      · rw [if_pos hp]
        exact ih hnd' hmem' dir
      · rw [if_neg hp]
        intro hin
        rcases List.mem_cons.mp hin with heq | hin'
        · injection heq with e₁ e₂
          exact hn₀ (e₁ ▸ hname)
        · rcases List.mem_cons.mp hin' with heq | hin''
          · injection heq with e₁ e₂
            exact hn₀ (e₁ ▸ hname)
          · exact ih hnd' hmem' dir hin''

/-- Claim C6 (witness): `C6_private_skipped` on a concrete collection with
a private and a public function, for both output directories. -/
theorem C6_witness :
    ("secret", lslFunctionsDir) ∉ functionGenTargets exFns6 ∧
    ("secret", sluaFunctionsDir) ∉ functionGenTargets exFns6 :=
  ⟨C6_private_skipped exFns6 "secret" exPrivFn (by decide) (by decide) (by decide)
      lslFunctionsDir,
    C6_private_skipped exFns6 "secret" exPrivFn (by decide) (by decide) (by decide)
      sluaFunctionsDir⟩

/-- Claim C7 (confirmed): on a non-success HTTP status the fetcher throws
an error whose message names the failing status code, and the file at the
output path is left exactly as it was (the write happens only after the
status check). -/
theorem C7_fetch_error (status : Nat) (body : String) (fs : Option String)
    (h : responseOk status = false) :
    fetchDefinitions status body fs
      = (.error ("HTTP error! status: " ++ toString status), fs) := by
  simp [fetchDefinitions, h]

/-- Claim C7 (witness): `C7_fetch_error` at status 404 over an absent
output file. -/
theorem C7_witness :
    fetchDefinitions 404 "content" none = (.error "HTTP error! status: 404", none) := by
  rw [C7_fetch_error 404 "content" none (by decide)]
  rfl

/-- Claim C8 (confirmed): the converted function preserves the raw
`energy` and `sleep` fields exactly as optional values — explicit numbers,
including zero, are kept, and an absent field stays absent — and an absent
`deprecated` flag converts to `false`. -/
theorem C8_energy_sleep (name : String) (fn : RawFunction) (fd : FunctionDefinition)
    (h : convertFunction name fn = .ok fd) :
    fd.energy = fn.energy ∧ fd.sleep = fn.sleep ∧
    (fn.deprecated = none → fd.deprecated = false) := by
  unfold convertFunction at h
  cases ht : convertTooltip fn.tooltip with
  | error e => rw [ht] at h; cases h
  | ok tt =>
    rw [ht] at h
    injection h with h
    subst h
    refine ⟨rfl, rfl, fun hd => ?_⟩
    show truthyOpt fn.deprecated = false
    rw [hd]
    rfl

/-- Claim C8 (witness): `C8_energy_sleep` on the `sayHello` example with
`energy: 10`, `sleep: 0`, no `deprecated` flag. -/
theorem C8_witness :
    exSayHelloFd.energy = some 10 ∧ exSayHelloFd.sleep = some 0 ∧
    exSayHelloFd.deprecated = false := by
  have h := C8_energy_sleep "sayHello" exSayHello exSayHelloFd rfl
  exact ⟨h.1.trans rfl, h.2.1.trans rfl, h.2.2 rfl⟩

/-- Claim C9 (confirmed): for every successfully parsed definitions
document, `getConstant` returns, for each name present in the constants
mapping, an entry whose `name` field equals the looked-up name, and
returns `none` — without failing — for each absent name; likewise
`getFunction` over functions and `getEvent` over events. -/
theorem C9_lookup (raw : RawDefs) (d : LSLDefinitions)
    (h : convertLSLDefinitions raw = .ok d) (name : String) :
    ((name ∈ d.constants.map Prod.fst →
        ∃ c, getConstant d name = some c ∧ c.name = name) ∧
      (name ∉ d.constants.map Prod.fst → getConstant d name = none)) ∧
    ((name ∈ d.functions.map Prod.fst →
        ∃ f, getFunction d name = some f ∧ f.name = name) ∧
      (name ∉ d.functions.map Prod.fst → getFunction d name = none)) ∧
    ((name ∈ d.events.map Prod.fst →
        ∃ ev, getEvent d name = some ev ∧ ev.name = name) ∧
      (name ∉ d.events.map Prod.fst → getEvent d name = none)) := by
  obtain ⟨hc, hf, he⟩ := convertLSLDefinitions_ok raw d h
  refine ⟨?_, ?_, ?_⟩
  · exact recLookup_name_spec ConstantDefinition.name d.constants
      (convertEntries_value_key convertConstant ConstantDefinition.name
        convertConstant_name raw.constants d.constants hc) name
  · exact recLookup_name_spec FunctionDefinition.name d.functions
      (convertEntries_value_key convertFunction FunctionDefinition.name
        convertFunction_name raw.functions d.functions hf) name
  · exact recLookup_name_spec EventDefinition.name d.events
      (convertEntries_value_key convertEvent EventDefinition.name
        convertEvent_name raw.events d.events he) name

/-- Claim C9 (witness): `C9_lookup` on a concrete parsed document, for a
present constant name and an absent one. -/
theorem C9_witness :
    (∃ c, getConstant exDefs9 "AGENT" = some c ∧ c.name = "AGENT") ∧
    getConstant exDefs9 "MISSING" = none :=
  ⟨(C9_lookup exRaw9 exDefs9 rfl "AGENT").1.1 (by decide),
    (C9_lookup exRaw9 exDefs9 rfl "MISSING").1.2 (by decide)⟩

/-- Claim C10 (confirmed): two distinct entry names equal after
lower-casing map to the same output path, and generating the first then
the second in the same directory leaves the shared path holding the
content generated for the second entry (over whatever the first wrote):
the write is unconditional, with no collision detection, so the
last-generated entry wins. -/
theorem C10_collision (store : List Char → Option (List Char))
    (dir n₁ n₂ component : List Char) (tt₁ tt₂ : Option (List Char))
    (hne : n₁ ≠ n₂) (hlow : n₁.map Char.toLower = n₂.map Char.toLower) :
    pathFor dir n₁ = pathFor dir n₂ ∧
    genWrite (genWrite store dir n₁ tt₁ component) dir n₂ tt₂ component (pathFor dir n₁)
      = some (generateContent n₂ tt₂ component
          (some (generateContent n₁ tt₁ component (store (pathFor dir n₁))))) := by
  have hpath : pathFor dir n₁ = pathFor dir n₂ := by
    unfold pathFor filenameFor
    rw [hlow]
  refine ⟨hpath, ?_⟩
  simp only [genWrite]
  rw [if_pos hpath, if_pos hpath.symm]

/-- Claim C10 (witness): `C10_collision` for the names `Foo` and `foo`
over an empty filesystem. -/
theorem C10_witness :
    pathFor (str "out") (str "Foo") = pathFor (str "out") (str "foo") ∧
    genWrite (genWrite (fun _ => none) (str "out") (str "Foo") none (str "LSLConstant"))
        (str "out") (str "foo") none (str "LSLConstant") (pathFor (str "out") (str "Foo"))
      = some (generateContent (str "foo") none (str "LSLConstant")
          (some (generateContent (str "Foo") none (str "LSLConstant") none))) :=
  C10_collision (fun _ => none) (str "out") (str "Foo") (str "foo") (str "LSLConstant")
    none none (by decide) (by decide)
